import Mathlib

/-!
Shallow embedding of `sac/distributions/real_nvp_bijector.py`.

A batched tensor of shape `[batch_size, 2]` is modelled per sample as a
vector `Fin 2 → ℝ`; all tensor operations in the source act elementwise
across the batch axis, so one sample captures them exactly.  The
conditioning keyword arguments (`**condition_kwargs`) are modelled as a
single value of an arbitrary type `C` passed to the scale and translation
functions.  Exact real arithmetic (`ℝ`, `Real.exp`) replaces floating
point; the NaN/Inf guard `tf.check_numerics` is modelled separately over
an extended scalar type `FpVal` further below.
-/

noncomputable section

namespace RealNVP

/-- Parity of a coupling layer: which alternating half of the coordinates
is kept as conditioning context (`"even"`/`"odd"` strings in the source). -/
inductive Parity where
  | even : Parity
  | odd : Parity
deriving DecidableEq, Repr

/-- `checkerboard(shape, parity)` for `shape = (2,)`, cast to the numeric
dtype: parity `even` gives the unit `(True, False)`, i.e. `[1, 0]`, and
parity `odd` gives `(False, True)`, i.e. `[0, 1]`. -/
def checkerboard (p : Parity) : Fin 2 → ℝ :=
  fun i =>
    match p with
    | Parity.even => if i = 0 then 1 else 0
    | Parity.odd => if i = 0 then 0 else 1

/-- `CouplingBijector(parity, translation_fn, scale_fn, validate_args)`.
The scale and translation functions take the masked input and the
conditioning value and return a width-2 vector, as in the source. -/
structure CouplingBijector (C : Type) where
  parity : Parity
  translation_fn : (Fin 2 → ℝ) → C → Fin 2 → ℝ
  scale_fn : (Fin 2 → ℝ) → C → Fin 2 → ℝ
  validate_args : Bool

variable {C : Type}

/-- `masked_x = x * mask` inside `_forward` / `_inverse`. -/
def maskedInput (l : CouplingBijector C) (x : Fin 2 → ℝ) : Fin 2 → ℝ :=
  fun i => x i * checkerboard l.parity i

/-- `scale = mask * scale_fn(masked_x, **condition_kwargs)`. -/
def scaleOf (l : CouplingBijector C) (x : Fin 2 → ℝ) (c : C) : Fin 2 → ℝ :=
  fun i => checkerboard l.parity i * l.scale_fn (maskedInput l x) c i

/-- `translation = mask * translation_fn(masked_x, **condition_kwargs)`. -/
def translationOf (l : CouplingBijector C) (x : Fin 2 → ℝ) (c : C) : Fin 2 → ℝ :=
  fun i => checkerboard l.parity i * l.translation_fn (maskedInput l x) c i

/-- `CouplingBijector._forward`: parity `odd` transforms index 0 using
`exp_scale[:, 1]` and `translation[:, 1]`, parity `even` transforms
index 1 using `exp_scale[:, 0]` and `translation[:, 0]`; the other
coordinate passes through. -/
def couplingForward (l : CouplingBijector C) (x : Fin 2 → ℝ) (c : C) : Fin 2 → ℝ :=
  match l.parity with
  | Parity.odd =>
      ![x 0 * Real.exp (scaleOf l x c 1) + translationOf l x c 1, x 1]
  | Parity.even =>
      ![x 0, x 1 * Real.exp (scaleOf l x c 0) + translationOf l x c 0]

/-- `CouplingBijector._forward_log_det_jacobian`: `reduce_sum` of the
masked scale over all axes but the batch axis. -/
def couplingFLDJ (l : CouplingBijector C) (x : Fin 2 → ℝ) (c : C) : ℝ :=
  scaleOf l x c 0 + scaleOf l x c 1

/-- `CouplingBijector._inverse`: recomputes mask, scale and translation
from `y` and inverts the affine map on the transformed coordinate. -/
def couplingInverse (l : CouplingBijector C) (y : Fin 2 → ℝ) (c : C) : Fin 2 → ℝ :=
  match l.parity with
  | Parity.odd =>
      ![(y 0 - translationOf l y c 1) * Real.exp (-scaleOf l y c 1), y 1]
  | Parity.even =>
      ![y 0, (y 1 - translationOf l y c 0) * Real.exp (-scaleOf l y c 0)]

/-- `CouplingBijector._inverse_log_det_jacobian`: negated `reduce_sum`
of the masked scale recomputed at `y`. -/
def couplingILDJ (l : CouplingBijector C) (y : Fin 2 → ℝ) (c : C) : ℝ :=
  -(scaleOf l y c 0 + scaleOf l y c 1)

/-- Index transformed by a layer of the given parity (`odd` scales and
translates coordinate 0, `even` coordinate 1). -/
def transformedIdx : Parity → Fin 2
  | Parity.odd => 0
  | Parity.even => 1

/-- Index passed through unchanged by a layer of the given parity. -/
def unchangedIdx : Parity → Fin 2
  | Parity.odd => 1
  | Parity.even => 0

/-- `CouplingBijector._maybe_assert_valid_x`: returns `x` unchanged when
`validate_args` is false, otherwise raises `NotImplementedError`. -/
def maybeAssertValidX (l : CouplingBijector C) (x : Fin 2 → ℝ) :
    Except String (Fin 2 → ℝ) :=
  if !l.validate_args then Except.ok x
  else Except.error "NotImplementedError: _maybe_assert_valid_x"

/-- `CouplingBijector._maybe_assert_valid_y`. -/
def maybeAssertValidY (l : CouplingBijector C) (y : Fin 2 → ℝ) :
    Except String (Fin 2 → ℝ) :=
  if !l.validate_args then Except.ok y
  else Except.error "NotImplementedError: _maybe_assert_valid_y"

/-- `CouplingBijector._forward` including the validation hook that the
source runs first (the hook's result is discarded on success). -/
def couplingForwardE (l : CouplingBijector C) (x : Fin 2 → ℝ) (c : C) :
    Except String (Fin 2 → ℝ) :=
  (maybeAssertValidX l x).bind fun _ => Except.ok (couplingForward l x c)

/-- `CouplingBijector._inverse` including the validation hook. -/
def couplingInverseE (l : CouplingBijector C) (y : Fin 2 → ℝ) (c : C) :
    Except String (Fin 2 → ℝ) :=
  (maybeAssertValidY l y).bind fun _ => Except.ok (couplingInverse l y c)

/-- `CouplingBijector._forward_log_det_jacobian` including the hook. -/
def couplingFLDJE (l : CouplingBijector C) (x : Fin 2 → ℝ) (c : C) :
    Except String ℝ :=
  (maybeAssertValidX l x).bind fun _ => Except.ok (couplingFLDJ l x c)

/-- `CouplingBijector._inverse_log_det_jacobian` including the hook. -/
def couplingILDJE (l : CouplingBijector C) (y : Fin 2 → ℝ) (c : C) :
    Except String ℝ :=
  (maybeAssertValidY l y).bind fun _ => Except.ok (couplingILDJ l y c)

/-- `RealNVPBijector`: owns the ordered list of coupling layers built by
`build` (the feedforward scale/translation networks are opaque function
parameters here, their TensorFlow variables being training state). -/
structure RealNVPBijector (C : Type) where
  layers : List (CouplingBijector C)
  validate_args : Bool

/-- `RealNVPBijector.build`: layers indexed `i = 1 .. num_coupling_layers`,
each with parity `("even", "odd")[i % 2]` and the shared wrapper
functions; constructed layers leave `validate_args` at its default
`False`. -/
def build (C : Type) (num_coupling_layers : ℕ)
    (translation_fn scale_fn : (Fin 2 → ℝ) → C → Fin 2 → ℝ) :
    List (CouplingBijector C) :=
  (List.range' 1 num_coupling_layers).map fun i =>
    { parity := if i % 2 = 0 then Parity.even else Parity.odd
      translation_fn := translation_fn
      scale_fn := scale_fn
      validate_args := false }

/-- Loop body of `RealNVPBijector._forward`: apply each layer's forward
in list order. -/
def nvpForward (ls : List (CouplingBijector C)) (x : Fin 2 → ℝ) (c : C) :
    Fin 2 → ℝ :=
  ls.foldl (fun out l => couplingForward l out c) x

/-- Loop body of `RealNVPBijector._inverse`: apply each layer's inverse
in reversed list order. -/
def nvpInverse (ls : List (CouplingBijector C)) (y : Fin 2 → ℝ) (c : C) :
    Fin 2 → ℝ :=
  ls.reverse.foldl (fun out l => couplingInverse l out c) y

/-- Loop body of `RealNVPBijector._forward_log_det_jacobian`: the
accumulator starts at `reduce_sum(zeros_like(x)) = 0`; each step adds the
layer's forward log-det-Jacobian at the current intermediate value and
then advances the intermediate value through the layer's forward. -/
def nvpFLDJ (ls : List (CouplingBijector C)) (x : Fin 2 → ℝ) (c : C) : ℝ :=
  (ls.foldl
    (fun acc l => (acc.1 + couplingFLDJ l acc.2 c, couplingForward l acc.2 c))
    ((0 : ℝ), x)).1

/-- Loop body of `RealNVPBijector._inverse_log_det_jacobian`: same
accumulation over the reversed layer list with the inverse direction. -/
def nvpILDJ (ls : List (CouplingBijector C)) (y : Fin 2 → ℝ) (c : C) : ℝ :=
  (ls.reverse.foldl
    (fun acc l => (acc.1 + couplingILDJ l acc.2 c, couplingInverse l acc.2 c))
    ((0 : ℝ), y)).1

/-- `RealNVPBijector._maybe_assert_valid_x`. -/
def nvpMaybeAssertValidX (f : RealNVPBijector C) (x : Fin 2 → ℝ) :
    Except String (Fin 2 → ℝ) :=
  if !f.validate_args then Except.ok x
  else Except.error "NotImplementedError: _maybe_assert_valid_x"

/-- `RealNVPBijector._maybe_assert_valid_y`. -/
def nvpMaybeAssertValidY (f : RealNVPBijector C) (y : Fin 2 → ℝ) :
    Except String (Fin 2 → ℝ) :=
  if !f.validate_args then Except.ok y
  else Except.error "NotImplementedError: _maybe_assert_valid_y"

/-- `RealNVPBijector._forward` including its validation hook. -/
def nvpForwardE (f : RealNVPBijector C) (x : Fin 2 → ℝ) (c : C) :
    Except String (Fin 2 → ℝ) :=
  (nvpMaybeAssertValidX f x).bind fun _ => Except.ok (nvpForward f.layers x c)

/-- `RealNVPBijector._inverse` including its validation hook. -/
def nvpInverseE (f : RealNVPBijector C) (y : Fin 2 → ℝ) (c : C) :
    Except String (Fin 2 → ℝ) :=
  (nvpMaybeAssertValidY f y).bind fun _ => Except.ok (nvpInverse f.layers y c)

/-- `RealNVPBijector._forward_log_det_jacobian` including its hook. -/
def nvpFLDJE (f : RealNVPBijector C) (x : Fin 2 → ℝ) (c : C) :
    Except String ℝ :=
  (nvpMaybeAssertValidX f x).bind fun _ => Except.ok (nvpFLDJ f.layers x c)

/-- `RealNVPBijector._inverse_log_det_jacobian` including its hook. -/
def nvpILDJE (f : RealNVPBijector C) (y : Fin 2 → ℝ) (c : C) :
    Except String ℝ :=
  (nvpMaybeAssertValidY f y).bind fun _ => Except.ok (nvpILDJ f.layers y c)

/-!
Extended scalars for the `tf.check_numerics` guard.  The source runs on
IEEE floating point, where a tensor entry can be `NaN`, `+Inf` or `-Inf`
(e.g. when corrupted network weights reach `scale_fn`); `tf.check_numerics`
aborts the forward pass exactly when `tf.exp(scale)` holds such an entry,
while `_inverse` computes `tf.exp(-scale)` with no such guard.  `FpVal`
is ℝ extended with those three non-finite values, with the IEEE
propagation rules for the operations the coupling layer uses.
-/

/-- A floating-point value: an exact finite real, or `±Inf`, or `NaN`. -/
inductive FpVal where
  | fin : ℝ → FpVal
  | inf : FpVal
  | neginf : FpVal
  | nan : FpVal

/-- IEEE multiplication on `FpVal` (`0 * ±Inf = NaN`, `NaN` absorbs). -/
def FpVal.mul : FpVal → FpVal → FpVal
  | FpVal.nan, _ => FpVal.nan
  | _, FpVal.nan => FpVal.nan
  | FpVal.fin a, FpVal.fin b => FpVal.fin (a * b)
  | FpVal.fin a, FpVal.inf =>
      if a = 0 then FpVal.nan else if 0 < a then FpVal.inf else FpVal.neginf
  | FpVal.inf, FpVal.fin b =>
      if b = 0 then FpVal.nan else if 0 < b then FpVal.inf else FpVal.neginf
  | FpVal.fin a, FpVal.neginf =>
      if a = 0 then FpVal.nan else if 0 < a then FpVal.neginf else FpVal.inf
  | FpVal.neginf, FpVal.fin b =>
      if b = 0 then FpVal.nan else if 0 < b then FpVal.neginf else FpVal.inf
  | FpVal.inf, FpVal.inf => FpVal.inf
  | FpVal.inf, FpVal.neginf => FpVal.neginf
  | FpVal.neginf, FpVal.inf => FpVal.neginf
  | FpVal.neginf, FpVal.neginf => FpVal.inf

/-- IEEE addition on `FpVal` (`Inf + -Inf = NaN`, `NaN` absorbs). -/
def FpVal.add : FpVal → FpVal → FpVal
  | FpVal.nan, _ => FpVal.nan
  | _, FpVal.nan => FpVal.nan
  | FpVal.fin a, FpVal.fin b => FpVal.fin (a + b)
  | FpVal.inf, FpVal.neginf => FpVal.nan
  | FpVal.neginf, FpVal.inf => FpVal.nan
  | FpVal.inf, _ => FpVal.inf
  | _, FpVal.inf => FpVal.inf
  | FpVal.neginf, _ => FpVal.neginf
  | _, FpVal.neginf => FpVal.neginf

/-- IEEE negation on `FpVal`. -/
def FpVal.neg : FpVal → FpVal
  | FpVal.fin a => FpVal.fin (-a)
  | FpVal.inf => FpVal.neginf
  | FpVal.neginf => FpVal.inf
  | FpVal.nan => FpVal.nan

/-- IEEE subtraction on `FpVal`. -/
def FpVal.sub (a b : FpVal) : FpVal :=
  FpVal.add a (FpVal.neg b)

/-- `tf.exp` on `FpVal`: `exp(+Inf) = +Inf`, `exp(-Inf) = 0`,
`exp(NaN) = NaN`. -/
def FpVal.exp : FpVal → FpVal
  | FpVal.fin a => FpVal.fin (Real.exp a)
  | FpVal.inf => FpVal.inf
  | FpVal.neginf => FpVal.fin 0
  | FpVal.nan => FpVal.nan

/-- The predicate `tf.check_numerics` tests: neither `NaN` nor `±Inf`. -/
def FpVal.isFinite : FpVal → Bool
  | FpVal.fin _ => true
  | _ => false

/-- A coupling layer whose tensors carry `FpVal` entries. -/
structure CouplingBijectorFp (C : Type) where
  parity : Parity
  translation_fn : (Fin 2 → FpVal) → C → Fin 2 → FpVal
  scale_fn : (Fin 2 → FpVal) → C → Fin 2 → FpVal

/-- The checkerboard mask cast to the `FpVal` dtype. -/
def checkerboardFp (p : Parity) : Fin 2 → FpVal :=
  fun i => FpVal.fin (checkerboard p i)

/-- `masked_x = x * mask` over `FpVal`. -/
def maskedInputFp (l : CouplingBijectorFp C) (x : Fin 2 → FpVal) : Fin 2 → FpVal :=
  fun i => FpVal.mul (x i) (checkerboardFp l.parity i)

/-- `scale = mask * scale_fn(masked_x, ...)` over `FpVal`. -/
def scaleOfFp (l : CouplingBijectorFp C) (x : Fin 2 → FpVal) (c : C) :
    Fin 2 → FpVal :=
  fun i => FpVal.mul (checkerboardFp l.parity i) (l.scale_fn (maskedInputFp l x) c i)

/-- `translation = mask * translation_fn(masked_x, ...)` over `FpVal`. -/
def translationOfFp (l : CouplingBijectorFp C) (x : Fin 2 → FpVal) (c : C) :
    Fin 2 → FpVal :=
  fun i => FpVal.mul (checkerboardFp l.parity i) (l.translation_fn (maskedInputFp l x) c i)

/-- `tf.exp(scale)`, the tensor `tf.check_numerics` inspects. -/
def expScaleFp (l : CouplingBijectorFp C) (x : Fin 2 → FpVal) (c : C) :
    Fin 2 → FpVal :=
  fun i => FpVal.exp (scaleOfFp l x c i)

/-- `CouplingBijector._forward` over `FpVal`: `tf.check_numerics` aborts
with the source's message when `tf.exp(scale)` holds a `NaN` or `Inf`
entry, otherwise the transformed output is returned. -/
def couplingForwardFp (l : CouplingBijectorFp C) (x : Fin 2 → FpVal) (c : C) :
    Except String (Fin 2 → FpVal) :=
  if (expScaleFp l x c 0).isFinite && (expScaleFp l x c 1).isFinite then
    Except.ok
      (match l.parity with
      | Parity.odd =>
          ![FpVal.add (FpVal.mul (x 0) (expScaleFp l x c 1)) (translationOfFp l x c 1),
            x 1]
      | Parity.even =>
          ![x 0,
            FpVal.add (FpVal.mul (x 1) (expScaleFp l x c 0)) (translationOfFp l x c 0)])
  else Except.error "tf.exp(scale) contains NaNs or Infs."

/-- `CouplingBijector._inverse` over `FpVal`: the source computes
`tf.exp(-scale)` with no `tf.check_numerics` guard, so no error path
exists. -/
def couplingInverseFp (l : CouplingBijectorFp C) (y : Fin 2 → FpVal) (c : C) :
    Except String (Fin 2 → FpVal) :=
  Except.ok
    (match l.parity with
    | Parity.odd =>
        ![FpVal.mul (FpVal.sub (y 0) (translationOfFp l y c 1))
            (FpVal.exp (FpVal.neg (scaleOfFp l y c 1))),
          y 1]
    | Parity.even =>
        ![y 0,
          FpVal.mul (FpVal.sub (y 1) (translationOfFp l y c 0))
            (FpVal.exp (FpVal.neg (scaleOfFp l y c 0)))])

/-!  Helper lemmas. -/

/-- The masked half of the forward output equals the masked half of the
input: the coordinate selected by the mask passes through `_forward`
unchanged, and the other coordinate is zeroed by the mask. -/
lemma maskedInput_couplingForward (l : CouplingBijector C) (x : Fin 2 → ℝ) (c : C) :
    maskedInput l (couplingForward l x c) = maskedInput l x := by
  funext i
  cases hp : l.parity <;> fin_cases i <;>
    simp [maskedInput, couplingForward, checkerboard, hp]

/-- The scale recomputed at the forward output equals the scale at the
input. -/
lemma scaleOf_couplingForward (l : CouplingBijector C) (x : Fin 2 → ℝ) (c : C) :
    scaleOf l (couplingForward l x c) c = scaleOf l x c := by
  unfold scaleOf
  rw [maskedInput_couplingForward]

/-- The translation recomputed at the forward output equals the
translation at the input. -/
lemma translationOf_couplingForward (l : CouplingBijector C) (x : Fin 2 → ℝ) (c : C) :
    translationOf l (couplingForward l x c) c = translationOf l x c := by
  unfold translationOf
  rw [maskedInput_couplingForward]

/-- Single-layer round trip, exactly in real arithmetic. -/
lemma couplingInverse_couplingForward (l : CouplingBijector C) (x : Fin 2 → ℝ) (c : C) :
    couplingInverse l (couplingForward l x c) c = x := by
  funext i
  cases hp : l.parity <;> fin_cases i <;>
    simp only [couplingInverse, hp, scaleOf_couplingForward,
      translationOf_couplingForward] <;>
    simp [couplingForward, hp, add_sub_cancel_right, Real.exp_neg, mul_assoc,
      mul_inv_cancel₀, Real.exp_ne_zero]

/-- Single-layer log-det-Jacobian consistency. -/
lemma couplingFLDJ_add_couplingILDJ (l : CouplingBijector C) (x : Fin 2 → ℝ) (c : C) :
    couplingFLDJ l x c + couplingILDJ l (couplingForward l x c) c = 0 := by
  unfold couplingFLDJ couplingILDJ
  rw [scaleOf_couplingForward]
  ring

/-- Unfolding `nvpForward` over a leading layer. -/
lemma nvpForward_cons (l : CouplingBijector C) (ls : List (CouplingBijector C))
    (x : Fin 2 → ℝ) (c : C) :
    nvpForward (l :: ls) x c = nvpForward ls (couplingForward l x c) c := rfl

/-- Unfolding `nvpInverse` over a leading layer: the head layer's inverse
is applied last. -/
lemma nvpInverse_cons (l : CouplingBijector C) (ls : List (CouplingBijector C))
    (y : Fin 2 → ℝ) (c : C) :
    nvpInverse (l :: ls) y c = couplingInverse l (nvpInverse ls y c) c := by
  unfold nvpInverse
  rw [List.reverse_cons, List.foldl_append]
  rfl

/-- Flow round trip. -/
lemma nvpInverse_nvpForward (ls : List (CouplingBijector C)) (x : Fin 2 → ℝ) (c : C) :
    nvpInverse ls (nvpForward ls x c) c = x := by
  induction ls generalizing x with
  | nil => rfl
  | cons l ls ih =>
      rw [nvpForward_cons, nvpInverse_cons, ih, couplingInverse_couplingForward]

/-- The first component of the forward log-det fold shifts with its
initial accumulator. -/
lemma nvpFLDJ_foldl_fst (ls : List (CouplingBijector C)) (c : C) (a : ℝ)
    (x : Fin 2 → ℝ) :
    (ls.foldl
      (fun acc l => (acc.1 + couplingFLDJ l acc.2 c, couplingForward l acc.2 c))
      (a, x)).1
      = a + (ls.foldl
          (fun acc l => (acc.1 + couplingFLDJ l acc.2 c, couplingForward l acc.2 c))
          ((0 : ℝ), x)).1 := by
  induction ls generalizing a x with
  | nil => simp
  | cons l ls ih =>
      simp only [List.foldl_cons]
      rw [ih, ih (0 + couplingFLDJ l x c)]
      ring

/-- Unfolding `nvpFLDJ` over a leading layer. -/
lemma nvpFLDJ_cons (l : CouplingBijector C) (ls : List (CouplingBijector C))
    (x : Fin 2 → ℝ) (c : C) :
    nvpFLDJ (l :: ls) x c
      = couplingFLDJ l x c + nvpFLDJ ls (couplingForward l x c) c := by
  unfold nvpFLDJ
  simp only [List.foldl_cons]
  rw [nvpFLDJ_foldl_fst]
  ring

/-- The first component of the inverse log-det fold shifts with its
initial accumulator (stated over an arbitrary layer sequence). -/
lemma nvpILDJ_foldl_fst (ms : List (CouplingBijector C)) (c : C) (a : ℝ)
    (y : Fin 2 → ℝ) :
    (ms.foldl
      (fun acc l => (acc.1 + couplingILDJ l acc.2 c, couplingInverse l acc.2 c))
      (a, y)).1
      = a + (ms.foldl
          (fun acc l => (acc.1 + couplingILDJ l acc.2 c, couplingInverse l acc.2 c))
          ((0 : ℝ), y)).1 := by
  induction ms generalizing a y with
  | nil => simp
  | cons l ms ih =>
      simp only [List.foldl_cons]
      rw [ih, ih (0 + couplingILDJ l y c)]
      ring

/-- The second component of the inverse log-det fold is the chained
inverse transform, independently of the accumulator. -/
lemma nvpILDJ_foldl_snd (ms : List (CouplingBijector C)) (c : C) (a : ℝ)
    (y : Fin 2 → ℝ) :
    (ms.foldl
      (fun acc l => (acc.1 + couplingILDJ l acc.2 c, couplingInverse l acc.2 c))
      (a, y)).2
      = ms.foldl (fun out l => couplingInverse l out c) y := by
  induction ms generalizing a y with
  | nil => rfl
  | cons l ms ih =>
      simp only [List.foldl_cons]
      rw [ih]

/-- Unfolding `nvpILDJ` over a leading layer: the head layer's inverse
log-det is accumulated last, at the almost-fully-inverted value. -/
lemma nvpILDJ_cons (l : CouplingBijector C) (ls : List (CouplingBijector C))
    (y : Fin 2 → ℝ) (c : C) :
    nvpILDJ (l :: ls) y c
      = nvpILDJ ls y c + couplingILDJ l (nvpInverse ls y c) c := by
  unfold nvpILDJ nvpInverse
  rw [List.reverse_cons, List.foldl_append]
  simp only [List.foldl_cons, List.foldl_nil]
  rw [nvpILDJ_foldl_snd]

/-- Flow log-det-Jacobian consistency. -/
lemma nvpFLDJ_add_nvpILDJ (ls : List (CouplingBijector C)) (x : Fin 2 → ℝ) (c : C) :
    nvpFLDJ ls x c + nvpILDJ ls (nvpForward ls x c) c = 0 := by
  induction ls generalizing x with
  | nil => simp [nvpFLDJ, nvpILDJ]
  | cons l ls ih =>
      rw [nvpFLDJ_cons, nvpForward_cons, nvpILDJ_cons, nvpInverse_nvpForward]
      have h1 := couplingFLDJ_add_couplingILDJ l x c
      have h2 := ih (couplingForward l x c)
      linarith

/-!  Claim theorems. -/

/-- C2: for every width-2 input and conditioning value, the coupling
bijector's inverse applied to its forward output returns the input
exactly (in exact real arithmetic), and the same round trip holds for
the composed RealNVP flow. -/
theorem C2_inverse_forward_roundtrip (l : CouplingBijector C)
    (ls : List (CouplingBijector C)) (x z : Fin 2 → ℝ) (c : C) :
    couplingInverse l (couplingForward l x c) c = x ∧
    nvpInverse ls (nvpForward ls z c) c = z :=
  ⟨couplingInverse_couplingForward l x c, nvpInverse_nvpForward ls z c⟩

/-- C3: the forward log-det-Jacobian at `x` plus the inverse
log-det-Jacobian at `forward(x, c)` is exactly zero, both for a single
coupling layer and for the composed flow. -/
theorem C3_log_det_consistency (l : CouplingBijector C)
    (ls : List (CouplingBijector C)) (x z : Fin 2 → ℝ) (c : C) :
    couplingFLDJ l x c + couplingILDJ l (couplingForward l x c) c = 0 ∧
    nvpFLDJ ls z c + nvpILDJ ls (nvpForward ls z c) c = 0 :=
  ⟨couplingFLDJ_add_couplingILDJ l x c, nvpFLDJ_add_nvpILDJ ls z c⟩

/-- C5: for `x = [1, 2]` and a parity-`even` layer, identity scale and
translation give `forward(x) = [1, 2]` with log-det `0`, and constant
scale `log 2` with zero translation gives `forward(x) = [1, 4]` with
log-det `log 2`. -/
theorem C5_concrete_scenarios :
    couplingForward
        (⟨Parity.even, fun _ _ _ => 0, fun _ _ _ => 0, false⟩ :
          CouplingBijector Unit) ![1, 2] () = ![1, 2] ∧
    couplingFLDJ
        (⟨Parity.even, fun _ _ _ => 0, fun _ _ _ => 0, false⟩ :
          CouplingBijector Unit) ![1, 2] () = 0 ∧
    couplingForward
        (⟨Parity.even, fun _ _ _ => 0, fun _ _ _ => Real.log 2, false⟩ :
          CouplingBijector Unit) ![1, 2] () = ![1, 4] ∧
    couplingFLDJ
        (⟨Parity.even, fun _ _ _ => 0, fun _ _ _ => Real.log 2, false⟩ :
          CouplingBijector Unit) ![1, 2] () = Real.log 2 := by
  refine ⟨?_, ?_, ?_, ?_⟩
  · funext i
    fin_cases i <;>
      simp [couplingForward, scaleOf, translationOf, checkerboard]
  · simp [couplingFLDJ, scaleOf, checkerboard]
  · funext i
    fin_cases i <;>
      simp [couplingForward, scaleOf, translationOf, checkerboard,
        Real.exp_log]
    norm_num
  · simp [couplingFLDJ, scaleOf, checkerboard]

/-- C6: a 2-layer flow's forward is layer 2's forward after layer 1's
forward and its inverse is layer 1's inverse after layer 2's inverse;
in general the flow applies the head layer first in the forward
direction and last in the inverse direction. -/
theorem C6_composition_order (l1 l2 l : CouplingBijector C)
    (ls : List (CouplingBijector C)) (x y z w : Fin 2 → ℝ) (c : C) :
    nvpForward [l1, l2] x c = couplingForward l2 (couplingForward l1 x c) c ∧
    nvpInverse [l1, l2] y c = couplingInverse l1 (couplingInverse l2 y c) c ∧
    nvpForward (l :: ls) z c = nvpForward ls (couplingForward l z c) c ∧
    nvpInverse (l :: ls) w c = couplingInverse l (nvpInverse ls w c) c :=
  ⟨rfl, rfl, nvpForward_cons l ls z c, nvpInverse_cons l ls w c⟩

/-- C7: the unchanged half passes through identically in both
directions: parity `odd` leaves coordinate 1 fixed, parity `even`
leaves coordinate 0 fixed, for both forward and inverse. -/
theorem C7_unchanged_half (tfn sfn : (Fin 2 → ℝ) → C → Fin 2 → ℝ) (v : Bool)
    (x : Fin 2 → ℝ) (c : C) :
    couplingForward ⟨Parity.odd, tfn, sfn, v⟩ x c 1 = x 1 ∧
    couplingInverse ⟨Parity.odd, tfn, sfn, v⟩ x c 1 = x 1 ∧
    couplingForward ⟨Parity.even, tfn, sfn, v⟩ x c 0 = x 0 ∧
    couplingInverse ⟨Parity.even, tfn, sfn, v⟩ x c 0 = x 0 := by
  refine ⟨?_, ?_, ?_, ?_⟩ <;> simp [couplingForward, couplingInverse]

/-- C9: with `validate_args = False` the validation hooks of both the
coupling layer and the flow return their argument unchanged; with
`validate_args = True` every one of the four operations raises
`NotImplementedError` instead of producing a result. -/
theorem C9_validation_hooks (p : Parity)
    (tfn sfn : (Fin 2 → ℝ) → C → Fin 2 → ℝ)
    (ls : List (CouplingBijector C)) (x : Fin 2 → ℝ) (c : C) :
    maybeAssertValidX ⟨p, tfn, sfn, false⟩ x = Except.ok x ∧
    maybeAssertValidY ⟨p, tfn, sfn, false⟩ x = Except.ok x ∧
    nvpMaybeAssertValidX ⟨ls, false⟩ x = Except.ok x ∧
    nvpMaybeAssertValidY ⟨ls, false⟩ x = Except.ok x ∧
    couplingForwardE ⟨p, tfn, sfn, true⟩ x c
      = Except.error "NotImplementedError: _maybe_assert_valid_x" ∧
    couplingInverseE ⟨p, tfn, sfn, true⟩ x c
      = Except.error "NotImplementedError: _maybe_assert_valid_y" ∧
    couplingFLDJE ⟨p, tfn, sfn, true⟩ x c
      = Except.error "NotImplementedError: _maybe_assert_valid_x" ∧
    couplingILDJE ⟨p, tfn, sfn, true⟩ x c
      = Except.error "NotImplementedError: _maybe_assert_valid_y" ∧
    nvpForwardE ⟨ls, true⟩ x c
      = Except.error "NotImplementedError: _maybe_assert_valid_x" ∧
    nvpInverseE ⟨ls, true⟩ x c
      = Except.error "NotImplementedError: _maybe_assert_valid_y" ∧
    nvpFLDJE ⟨ls, true⟩ x c
      = Except.error "NotImplementedError: _maybe_assert_valid_x" ∧
    nvpILDJE ⟨ls, true⟩ x c
      = Except.error "NotImplementedError: _maybe_assert_valid_y" :=
  ⟨rfl, rfl, rfl, rfl, rfl, rfl, rfl, rfl, rfl, rfl, rfl, rfl⟩

/-- C1 (counterexample): for a 2-layer flow as built by
`RealNVPBijector.build`, layer 1 has parity `odd`, not `even`: the source
indexes `("even", "odd")[i % 2]` with `i` running from 1, so the
alternation starts at `odd`. -/
theorem C1_counterexample :
    ((build Unit 2 (fun _ _ _ => 0) (fun _ _ _ => 0)).map
        (fun l => l.parity)).getD 0 Parity.even = Parity.odd ∧
    Parity.odd ≠ Parity.even := by
  constructor
  · rfl
  · decide

/-- C1 (amended): in a `RealNVPBijector` flow with `n` coupling layers,
layer `i` (1-indexed) has parity `odd` when `i` is odd and `even` when
`i` is even — the alternation across the ordered layer list starts at
`odd` for layer 1. -/
theorem C1_layer_parity (D : Type) (n : ℕ)
    (tfn sfn : (Fin 2 → ℝ) → D → Fin 2 → ℝ) (i : ℕ)
    (h1 : 1 ≤ i) (h2 : i ≤ n) :
    ((build D n tfn sfn).map (fun l => l.parity)).getD (i - 1) Parity.even
      = if i % 2 = 1 then Parity.odd else Parity.even := by
  have hlen : ((build D n tfn sfn).map (fun l => l.parity)).length = n := by
    simp [build]
  have hlt : i - 1 < n := by omega
  rw [List.getD_eq_getElem _ _ (by rw [hlen]; exact hlt)]
  simp only [build, List.getElem_map, List.getElem_range']
  have hi : 1 + 1 * (i - 1) = i := by omega
  rw [hi]
  rcases Nat.mod_two_eq_zero_or_one i with h | h <;> simp [h]

/-- Witness for C1: at `n = 2`, layer 1 of the built flow has parity
`odd`. -/
theorem C1_layer_parity_witness :
    ((build Unit 2 (fun _ _ _ => 0) (fun _ _ _ => 0)).map
        (fun l => l.parity)).getD (1 - 1) Parity.even = Parity.odd := by
  have h := C1_layer_parity Unit 2 (fun _ _ _ => 0) (fun _ _ _ => 0) 1
    (by decide) (by decide)
  simpa using h

/-- The masked input is unchanged when the transformed coordinate is
overwritten: the mask zeroes that coordinate. -/
lemma maskedInput_update (l : CouplingBijector C) (x : Fin 2 → ℝ) (t : ℝ) :
    maskedInput l (Function.update x (transformedIdx l.parity) t)
      = maskedInput l x := by
  funext i
  cases hp : l.parity <;> fin_cases i <;>
    simp [maskedInput, transformedIdx, checkerboard, hp, Function.update]

/-- The scale does not depend on the transformed coordinate. -/
lemma scaleOf_update (l : CouplingBijector C) (x : Fin 2 → ℝ) (c : C) (t : ℝ) :
    scaleOf l (Function.update x (transformedIdx l.parity) t) c = scaleOf l x c := by
  unfold scaleOf
  rw [maskedInput_update]

/-- The translation does not depend on the transformed coordinate. -/
lemma translationOf_update (l : CouplingBijector C) (x : Fin 2 → ℝ) (c : C) (t : ℝ) :
    translationOf l (Function.update x (transformedIdx l.parity) t) c
      = translationOf l x c := by
  unfold translationOf
  rw [maskedInput_update]

/-- The masked-scale sum collapses to its single surviving entry, the
one at the mask-selected (unchanged) index. -/
lemma couplingFLDJ_eq_scaleOf_unchanged (l : CouplingBijector C)
    (x : Fin 2 → ℝ) (c : C) :
    couplingFLDJ l x c = scaleOf l x c (unchangedIdx l.parity) := by
  cases hp : l.parity <;>
    simp [couplingFLDJ, scaleOf, unchangedIdx, checkerboard, hp]

/-- As a function of the transformed coordinate alone, the forward
transform is affine with multiplier `exp` of the forward
log-det-Jacobian. -/
lemma couplingForward_update_transformed (l : CouplingBijector C)
    (x : Fin 2 → ℝ) (c : C) (t : ℝ) :
    couplingForward l (Function.update x (transformedIdx l.parity) t) c
        (transformedIdx l.parity)
      = t * Real.exp (couplingFLDJ l x c)
          + translationOf l x c (unchangedIdx l.parity) := by
  have hs := scaleOf_update l x c t
  have htr := translationOf_update l x c t
  rw [couplingFLDJ_eq_scaleOf_unchanged]
  cases hp : l.parity <;> rw [hp] at hs htr <;>
    simp only [transformedIdx] at hs htr <;>
    simp [couplingForward, transformedIdx, unchangedIdx, hp, hs, htr,
      Function.update]

/-- C4: the forward log-det-Jacobian is the sum of the masked scale over
the non-batch axis; that sum is the single surviving scale entry; the
forward transform is affine in the transformed coordinate with slope
`exp` of that entry (so the Jacobian is triangular with diagonal
`(1, exp scale)`), the unchanged coordinate being independent of the
transformed one; and the log of the resulting triangular determinant is
exactly the forward log-det-Jacobian, whatever the off-diagonal entry. -/
theorem C4_fldj_is_exact_log_det (l : CouplingBijector C) (x : Fin 2 → ℝ) (c : C) :
    couplingFLDJ l x c = scaleOf l x c 0 + scaleOf l x c 1 ∧
    couplingFLDJ l x c = scaleOf l x c (unchangedIdx l.parity) ∧
    (∀ t, couplingForward l (Function.update x (transformedIdx l.parity) t) c
        (unchangedIdx l.parity) = x (unchangedIdx l.parity)) ∧
    (∀ t, couplingForward l (Function.update x (transformedIdx l.parity) t) c
        (transformedIdx l.parity)
      = t * Real.exp (couplingFLDJ l x c)
          + translationOf l x c (unchangedIdx l.parity)) ∧
    HasDerivAt
      (fun t => couplingForward l (Function.update x (transformedIdx l.parity) t) c
        (transformedIdx l.parity))
      (Real.exp (couplingFLDJ l x c)) (x (transformedIdx l.parity)) ∧
    (∀ w : ℝ,
      Real.log (Matrix.det !![Real.exp (couplingFLDJ l x c), 0; w, 1])
        = couplingFLDJ l x c) := by
  refine ⟨rfl, couplingFLDJ_eq_scaleOf_unchanged l x c, ?_, ?_, ?_, ?_⟩
  · intro t
    cases hp : l.parity <;>
      simp [couplingForward, transformedIdx, unchangedIdx, hp, Function.update]
  · exact fun t => couplingForward_update_transformed l x c t
  · have heq :
        (fun t => couplingForward l (Function.update x (transformedIdx l.parity) t) c
          (transformedIdx l.parity))
          = fun t => t * Real.exp (couplingFLDJ l x c)
              + translationOf l x c (unchangedIdx l.parity) :=
      funext fun t => couplingForward_update_transformed l x c t
    rw [heq]
    exact (hasDerivAt_mul_const _).add_const _
  · intro w
    simp [Matrix.det_fin_two_of, Real.log_exp]

/-- C8: if `tf.exp(scale)` holds a `NaN` or `Inf` entry, the forward
pass halts with the fatal `check_numerics` error instead of returning a
value; if every entry is finite, the forward pass completes normally. -/
theorem C8_forward_numeric_guard (l : CouplingBijectorFp C) (x : Fin 2 → FpVal)
    (c : C) :
    (((expScaleFp l x c 0).isFinite = false ∨ (expScaleFp l x c 1).isFinite = false) →
      couplingForwardFp l x c = Except.error "tf.exp(scale) contains NaNs or Infs.") ∧
    ((expScaleFp l x c 0).isFinite = true → (expScaleFp l x c 1).isFinite = true →
      ∃ v, couplingForwardFp l x c = Except.ok v) := by
  constructor
  · intro h
    unfold couplingForwardFp
    rcases h with h | h <;> simp [h]
  · intro h0 h1
    unfold couplingForwardFp
    rw [h0, h1]
    exact ⟨_, rfl⟩

/-- Witness for C8: a parity-`even` layer whose scale network emits
`+Inf` makes the forward pass fail with the `check_numerics` message,
while a scale network emitting `0` lets it complete. -/
theorem C8_forward_numeric_guard_witness :
    couplingForwardFp
        (⟨Parity.even, fun _ _ _ => FpVal.fin 0, fun _ _ _ => FpVal.inf⟩ :
          CouplingBijectorFp Unit) (fun _ => FpVal.fin 0) ()
      = Except.error "tf.exp(scale) contains NaNs or Infs." ∧
    ∃ v, couplingForwardFp
        (⟨Parity.even, fun _ _ _ => FpVal.fin 0, fun _ _ _ => FpVal.fin 0⟩ :
          CouplingBijectorFp Unit) (fun _ => FpVal.fin 0) ()
      = Except.ok v := by
  constructor
  · exact (C8_forward_numeric_guard _ _ _).1
      (Or.inl (by
        simp [expScaleFp, scaleOfFp, maskedInputFp, checkerboardFp, checkerboard,
          FpVal.mul, FpVal.exp, FpVal.isFinite]))
  · exact (C8_forward_numeric_guard _ _ _).2
      (by
        simp [expScaleFp, scaleOfFp, maskedInputFp, checkerboardFp, checkerboard,
          FpVal.mul, FpVal.exp, FpVal.isFinite])
      (by
        simp [expScaleFp, scaleOfFp, maskedInputFp, checkerboardFp, checkerboard,
          FpVal.mul, FpVal.exp, FpVal.isFinite])

/-- C10: the coupling layer's inverse computes `tf.exp(-scale)` with no
`check_numerics` guard, so it returns a value and never raises the
numeric-corruption error, even when `exp(-scale)` holds a `NaN` or `Inf`
entry. -/
theorem C10_inverse_has_no_numeric_guard (l : CouplingBijectorFp C)
    (y : Fin 2 → FpVal) (c : C)
    (_h : (FpVal.exp (FpVal.neg (scaleOfFp l y c 0))).isFinite = false ∨
          (FpVal.exp (FpVal.neg (scaleOfFp l y c 1))).isFinite = false) :
    (∃ v, couplingInverseFp l y c = Except.ok v) ∧
    ∀ msg : String, couplingInverseFp l y c ≠ Except.error msg :=
  ⟨⟨_, rfl⟩, fun _ => by simp [couplingInverseFp]⟩

/-- Witness for C10: a parity-`even` layer whose scale network emits
`-Inf` makes `exp(-scale)` equal `+Inf`, yet the inverse still returns a
value. -/
theorem C10_inverse_has_no_numeric_guard_witness :
    (∃ v, couplingInverseFp
        (⟨Parity.even, fun _ _ _ => FpVal.fin 0, fun _ _ _ => FpVal.neginf⟩ :
          CouplingBijectorFp Unit) (fun _ => FpVal.fin 0) ()
      = Except.ok v) ∧
    ∀ msg : String, couplingInverseFp
        (⟨Parity.even, fun _ _ _ => FpVal.fin 0, fun _ _ _ => FpVal.neginf⟩ :
          CouplingBijectorFp Unit) (fun _ => FpVal.fin 0) ()
      ≠ Except.error msg :=
  C10_inverse_has_no_numeric_guard _ _ _
    (Or.inl (by
      simp [scaleOfFp, maskedInputFp, checkerboardFp, checkerboard,
        FpVal.mul, FpVal.neg, FpVal.exp, FpVal.isFinite]))

end RealNVP

end
